import Mathlib

/-!
Shallow embedding of the gameplay systems of `src/main.rs` of the `survive`
repository (an Asteroids-style game on the Bevy engine).

Modelling conventions:
* machine `f32` arithmetic is modelled as exact rational arithmetic (`ℚ`);
* the trigonometric rotation `Quat::from_rotation_z(θ).mul_vec3(v)` and
  `f32::cos` / `f32::sin` are kept abstract as function parameters, since the
  claims under study are structural and do not depend on trig identities;
* the `rand` crate's `thread_rng` is modelled as an explicit stream of draws,
  with `gen_range(lo..hi)` resolving the next draw to a value of the half-open
  sample interval `[lo, hi)` (the crate's contract);
* Bevy's deferred `Commands` (despawns) are applied at the end of the system
  pass that issued them, which is observationally equivalent per tick.
-/

namespace Survive

/-- Exact rational value of the `f32` constant `std::f32::consts::PI`
(bit pattern `0x40490FDB`). -/
def pi32 : ℚ := 13176795 / 4194304

/-- Model of a Bevy `Timer` in `TimerMode::Once`: `elapsed` accumulates tick
deltas and is clamped at `duration`. -/
structure Timer where
  elapsed : ℚ
  duration : ℚ
deriving DecidableEq

/-- Model of `Timer::tick(delta)`: advance `elapsed` by `delta`, clamped at the
duration. -/
def Timer.tick (t : Timer) (d : ℚ) : Timer :=
  ⟨min (t.elapsed + d) t.duration, t.duration⟩

/-- Model of `Timer::finished()` for a once-timer: the elapsed time has reached
the duration. -/
def Timer.finished (t : Timer) : Bool :=
  decide (t.duration ≤ t.elapsed)

/-- Model of `Timer::reset()`: the elapsed time returns to zero. -/
def Timer.reset (t : Timer) : Timer :=
  ⟨0, t.duration⟩

/-- The fire timer of `LaserWeaponBundle::default()`:
`Timer::new(Duration::from_secs_f32(60.0 / 120.0), TimerMode::Once)`. -/
def defaultFireTimer : Timer := ⟨0, 1/2⟩

/-- The `InputAction` event of `main.rs`: a movement intent or a fire intent. -/
inductive InputAction
  | Move (v : ℚ × ℚ)
  | Fire
deriving DecidableEq

/-- Model of `proto_input`: derive the tick's intent list from the pressed
state of the four directional key groups and the fire key.  A `Move` event is
sent only when some axis is nonzero; a `Fire` event follows when the fire key
is held. -/
def protoInput (left right up down fire : Bool) : List InputAction :=
  let horizontal : ℚ :=
    match left, right with
    | true, true => 0
    | true, false => -1
    | false, true => 1
    | false, false => 0
  let vertical : ℚ :=
    match up, down with
    | true, true => 0
    | true, false => 1
    | false, true => -1
    | false, false => 0
  (if 0 < |horizontal| ∨ 0 < |vertical| then
    [InputAction.Move (horizontal, vertical)]
  else []) ++ (if fire then [InputAction.Fire] else [])

/-- The horizontal movement-axis value carried by an intent (`0` for `Fire`). -/
def moveX : InputAction → ℚ
  | InputAction.Move v => v.1
  | InputAction.Fire => 0

/-- The vertical movement-axis value carried by an intent (`0` for `Fire`). -/
def moveY : InputAction → ℚ
  | InputAction.Move v => v.2
  | InputAction.Fire => 0

/-- One iteration of the event loop of `update_weapons` for the single ship:
tick the fire timer by the tick's delta, then, on a `Fire` intent whose ticked
timer is finished, emit a laser-spawn request and reset the timer.  The `ℕ`
component counts the `SpawnLaserEvent`s emitted so far. -/
def weaponStep (delta : ℚ) (s : Timer × ℕ) (e : InputAction) : Timer × ℕ :=
  let t := s.1.tick delta
  match e with
  | InputAction.Move _ => (t, s.2)
  | InputAction.Fire => if t.finished then (t.reset, s.2 + 1) else (t, s.2)

/-- Model of `update_weapons` for one tick: fold the tick's intent events over
the ship's fire timer, counting emitted laser-spawn requests. -/
def updateWeapons (delta : ℚ) (events : List InputAction) (t : Timer) : Timer × ℕ :=
  events.foldl (weaponStep delta) (t, 0)

/-- The two-stage horizontal boundary check of `wrapper`, in source order:
first `x > 640.0` reflects with offset `+1`, then `x < -640.0` (tested on the
updated value) reflects with offset `-1`. -/
def wrapX (x : ℚ) : ℚ :=
  let x1 := if 640 < x then -x + 1 else x
  if x1 < -640 then -x1 - 1 else x1

/-- The two-stage vertical boundary check of `wrapper`, in source order:
first `y > 360.0` reflects with offset `+1`, then `y < -360.0` (tested on the
updated value) reflects with offset `-1`. -/
def wrapY (y : ℚ) : ℚ :=
  let y1 := if 360 < y then -y + 1 else y
  if y1 < -360 then -y1 - 1 else y1

/-- Model of `wrapper` on one entity's position.  The source interleaves the
axes (`y⁺`, `x⁺`, `y⁻`, `x⁻`) on the two mutable coordinates; the axes do not
interact, so the per-axis two-stage checks are applied componentwise. -/
def wrapPoint (p : ℚ × ℚ) : ℚ × ℚ :=
  (wrapX p.1, wrapY p.2)

/-- Reference definition for the amended boundary claim, following the amended
claim's words: a coordinate more than one unit beyond the positive bound is
reflected by both checks of the same pass (net shift by `-2`); a coordinate
beyond a bound by at most one unit (or beyond the negative bound) is negated
with a unit offset toward the interior; a coordinate at or within the bounds
is unchanged. -/
def wrapCoordSpec (bound c : ℚ) : ℚ :=
  if bound + 1 < c then c - 2
  else if bound < c then -c + 1
  else if c < -bound then -c - 1
  else c

/-- Folding a tick's events with no `Fire` intent ticks the fire timer once per
event and emits no spawn request. -/
lemma foldl_weaponStep_no_fire (d : ℚ) :
    ∀ (evs : List InputAction) (t : Timer) (k : ℕ),
      (∀ e ∈ evs, e ≠ InputAction.Fire) →
      evs.foldl (weaponStep d) (t, k) = ((fun s => s.tick d)^[evs.length] t, k) := by
  intro evs
  induction evs with
  | nil => intro t k _; rfl
  | cons e evs ih =>
    intro t k h
    have he : e ≠ InputAction.Fire := h e (by simp)
    cases e with
    | Move v =>
      simp only [List.foldl_cons, weaponStep, List.length_cons]
      rw [ih (t.tick d) k fun e2 he2 => h e2 (List.mem_cons_of_mem _ he2)]
      rw [Function.iterate_succ_apply]
    | Fire => exact absurd rfl he

/-- A fire timer whose elapsed time plus all remaining per-event ticks stays
below its duration never finishes, so no further spawn request is emitted. -/
lemma foldl_weaponStep_no_spawn (d : ℚ) (hd : 0 ≤ d) :
    ∀ (evs : List InputAction) (t : Timer) (k : ℕ),
      t.elapsed + evs.length * d < t.duration →
      (evs.foldl (weaponStep d) (t, k)).2 = k := by
  intro evs
  induction evs with
  | nil => intro t k _; rfl
  | cons e evs ih =>
    intro t k h
    have hn : (0 : ℚ) ≤ (evs.length : ℚ) * d := mul_nonneg (by positivity) hd
    have hexp : t.elapsed + (evs.length : ℚ) * d + d < t.duration := by
      have hc : ((e :: evs).length : ℚ) * d = (evs.length : ℚ) * d + d := by
        push_cast [List.length_cons]; ring
      rw [hc] at h; linarith
    have hd1 : t.elapsed + d < t.duration := by linarith
    have htick : t.tick d = ⟨t.elapsed + d, t.duration⟩ := by
      simp [Timer.tick, min_eq_left hd1.le]
    have hfin : (Timer.mk (t.elapsed + d) t.duration).finished = false := by
      simp only [Timer.finished, decide_eq_false_iff_not]
      intro hle; exact absurd hd1 (not_lt.mpr hle)
    have hrec : (evs.foldl (weaponStep d)
        ((⟨t.elapsed + d, t.duration⟩ : Timer), k)).2 = k := by
      apply ih
      show t.elapsed + d + (evs.length : ℚ) * d < t.duration
      linarith
    cases e with
    | Move v =>
      simpa only [List.foldl_cons, weaponStep, htick] using hrec
    | Fire =>
      simpa only [List.foldl_cons, weaponStep, htick, hfin, if_false,
        Bool.false_eq_true] using hrec

/-- After the first spawn of a tick the timer restarts from zero, so a tick
whose per-event re-ticks cannot reach the cooldown interval again emits at
most one more spawn request than it started with. -/
lemma foldl_weaponStep_le_one (d : ℚ) (hd : 0 ≤ d) :
    ∀ (evs : List InputAction) (t : Timer) (k : ℕ),
      ((evs.length : ℚ) - 1) * d < t.duration →
      (evs.foldl (weaponStep d) (t, k)).2 ≤ k + 1 := by
  intro evs
  induction evs with
  | nil => intro t k _; exact Nat.le_succ k
  | cons e evs ih =>
    intro t k h
    have hlen : ((e :: evs).length : ℚ) - 1 = (evs.length : ℚ) := by
      push_cast [List.length_cons]; ring
    rw [hlen] at h
    have hrec0 : ((evs.length : ℚ) - 1) * d < t.duration := by
      have : ((evs.length : ℚ) - 1) * d ≤ (evs.length : ℚ) * d :=
        mul_le_mul_of_nonneg_right (by linarith) hd
      linarith
    have hdur : (t.tick d).duration = t.duration := rfl
    cases e with
    | Move v =>
      simp only [List.foldl_cons, weaponStep]
      exact ih (t.tick d) k (by rw [hdur]; exact hrec0)
    | Fire =>
      simp only [List.foldl_cons, weaponStep]
      cases hf : (t.tick d).finished with
      | false =>
        simp only [hf, Bool.false_eq_true, if_false]
        exact ih (t.tick d) k (by rw [hdur]; exact hrec0)
      | true =>
        simp only [hf, if_true]
        have : (evs.foldl (weaponStep d) ((t.tick d).reset, k + 1)).2 = k + 1 := by
          apply foldl_weaponStep_no_spawn d hd
          show (0 : ℚ) + (evs.length : ℚ) * d < t.duration
          linarith
        omega

/-- C1 (corrected), counterexample to the claim as stated: on a tick with no
intent events and a positive delta, `update_weapons` leaves the fire timer
untouched instead of advancing it by the tick's elapsed time. -/
theorem weapon_timer_frozen_without_intents :
    (updateWeapons (1/4) [] ⟨0, 1/2⟩).1 = ⟨0, 1/2⟩ ∧
      (⟨0, 1/2⟩ : Timer) ≠ Timer.tick ⟨0, 1/2⟩ (1/4) := by
  refine ⟨rfl, fun h => ?_⟩
  have h1 : (0 : ℚ) = min (0 + 1/4) (1/2) := congrArg Timer.elapsed h
  norm_num [min_def] at h1

/-- Iterating the per-event tick with a nonnegative delta accumulates the
elapsed time (clamped at the duration). -/
lemma iterate_tick_elapsed (d : ℚ) (hd : 0 ≤ d) (t : Timer) :
    ∀ m : ℕ, ((fun s => s.tick d)^[m + 1] t) =
      ⟨min (t.elapsed + ((m : ℚ) + 1) * d) t.duration, t.duration⟩ := by
  intro m
  induction m with
  | zero =>
    rw [Function.iterate_one]
    unfold Timer.tick
    norm_num
  | succ m ih =>
    rw [Function.iterate_succ_apply', ih]
    unfold Timer.tick
    congr 1
    push_cast
    have hexp : t.elapsed + ((m : ℚ) + 1 + 1) * d =
        t.elapsed + ((m : ℚ) + 1) * d + d := by ring
    rcases le_total (t.elapsed + ((m : ℚ) + 1) * d) t.duration with hle | hle
    · rw [min_eq_left hle, hexp]
    · rw [min_eq_right hle, min_eq_right (by linarith),
        min_eq_right (by rw [hexp]; linarith)]

/-- C1 (amended): the weapon cooldown timer advances by the tick's elapsed
time once per intent event received that tick, a `Fire` event included — on a
tick with no intents it does not advance at all; a tick of `Move` events ticks
the timer once per event; and the first `Fire` intent of a tick, arriving
after `k` `Move` intents, is itself preceded by one more tick and succeeds
exactly when the accumulated per-event ticks `(k + 1) * delta` since the last
shot reach the fixed interval, resetting the timer to zero on success. -/
theorem weapon_timer_ticks_per_event (d : ℚ) (t : Timer) :
    updateWeapons d [] t = (t, 0) ∧
    (∀ evs : List InputAction, (∀ e ∈ evs, e ≠ InputAction.Fire) →
      updateWeapons d evs t = ((fun s => s.tick d)^[evs.length] t, 0)) ∧
    (∀ ms : List InputAction, (∀ e ∈ ms, e ≠ InputAction.Fire) → 0 ≤ d →
      updateWeapons d (ms ++ [InputAction.Fire]) t =
        if t.duration ≤ t.elapsed + ((ms.length : ℚ) + 1) * d
        then ((⟨0, t.duration⟩ : Timer), 1)
        else ((fun s => s.tick d)^[ms.length + 1] t, 0)) := by
  refine ⟨rfl, fun evs h => foldl_weaponStep_no_fire d evs t 0 h, ?_⟩
  intro ms hms hd
  have hsplit : updateWeapons d (ms ++ [InputAction.Fire]) t =
      List.foldl (weaponStep d) ((fun s => s.tick d)^[ms.length] t, 0)
        [InputAction.Fire] := by
    unfold updateWeapons
    rw [List.foldl_append, foldl_weaponStep_no_fire d ms t 0 hms]
  rw [hsplit]
  simp only [List.foldl_cons, List.foldl_nil, weaponStep]
  rw [show ((fun s => s.tick d)^[ms.length] t).tick d =
      (fun s => s.tick d)^[ms.length + 1] t from
    (Function.iterate_succ_apply' (fun s => s.tick d) ms.length t).symm]
  by_cases hcond : t.duration ≤ t.elapsed + ((ms.length : ℚ) + 1) * d
  · have hfin : ((fun s => s.tick d)^[ms.length + 1] t).finished = true := by
      rw [iterate_tick_elapsed d hd t ms.length]
      simp only [Timer.finished, decide_eq_true_eq, le_min_iff]
      exact ⟨hcond, le_rfl⟩
    rw [if_pos hcond]
    simp only [hfin, if_true]
    rw [iterate_tick_elapsed d hd t ms.length]
    rfl
  · have hfin : ((fun s => s.tick d)^[ms.length + 1] t).finished = false := by
      rw [iterate_tick_elapsed d hd t ms.length]
      simp only [Timer.finished, decide_eq_false_iff_not, le_min_iff, not_and]
      intro h2
      exact absurd h2 hcond
    rw [if_neg hcond]
    simp only [hfin, Bool.false_eq_true, if_false]

/-- Witness for the C1 amended theorem at a concrete tick: one `Move` then one
`Fire` intent with delta `1/4` against a fresh half-second timer; the two
per-event ticks accumulate to the interval, so the weapon fires and resets. -/
theorem weapon_timer_ticks_per_event_witness :
    updateWeapons (1/4) [InputAction.Move (1, 0), InputAction.Fire] ⟨0, 1/2⟩ =
      (⟨0, 1/2⟩, 1) := by
  have h := (weapon_timer_ticks_per_event (1/4) ⟨0, 1/2⟩).2.2
    [InputAction.Move (1, 0)] (by decide) (by norm_num)
  rw [show ([InputAction.Move ((1 : ℚ), 0)] ++ [InputAction.Fire]) =
      [InputAction.Move ((1 : ℚ), 0), InputAction.Fire] from rfl] at h
  rw [h, if_pos (by norm_num)]

/-- C5 (corrected), counterexample to the claim as stated: two `Fire` intents
in a single tick with delta `1` (at least the half-second cooldown) emit two
spawn requests, because the timer is re-ticked by the full delta before each
intent is examined. -/
theorem two_fire_intents_two_spawns :
    (updateWeapons 1 [InputAction.Fire, InputAction.Fire] ⟨1/2, 1/2⟩).2 = 2 ∧
      ¬ (updateWeapons 1 [InputAction.Fire, InputAction.Fire] ⟨1/2, 1/2⟩).2 ≤ 1 := by
  have h : updateWeapons 1 [InputAction.Fire, InputAction.Fire] ⟨1/2, 1/2⟩ =
      (⟨0, 1/2⟩, 2) := by
    norm_num [updateWeapons, weaponStep, Timer.tick, Timer.finished, Timer.reset, min_def]
  rw [h]
  exact ⟨rfl, by norm_num⟩

/-- C5 (amended): multiple `Fire` intents in one tick emit at most one spawn
request provided the per-event re-ticks after the first spawn cannot reach the
cooldown interval within the tick, i.e. provided
`(number of intent events - 1) * delta < interval`. -/
theorem multiple_fire_intents_at_most_one_spawn
    (d : ℚ) (evs : List InputAction) (t : Timer)
    (hd : 0 ≤ d) (h : ((evs.length : ℚ) - 1) * d < t.duration) :
    (updateWeapons d evs t).2 ≤ 1 :=
  foldl_weaponStep_le_one d hd evs t 0 h

/-- Witness for the C5 amended theorem: two `Fire` intents with delta `0`
against a finished half-second timer spawn at most once. -/
theorem multiple_fire_intents_at_most_one_spawn_witness :
    (updateWeapons 0 [InputAction.Fire, InputAction.Fire] ⟨1/2, 1/2⟩).2 ≤ 1 :=
  multiple_fire_intents_at_most_one_spawn 0 _ _ le_rfl (by norm_num)

/-- C9 (confirmed): when both keys of an opposed pair are held (left+right, or
up+down), every intent emitted that tick carries a zero movement-axis value on
that axis. -/
theorem opposed_inputs_cancel :
    (∀ (u d f : Bool), ∀ a ∈ protoInput true true u d f, moveX a = 0) ∧
    (∀ (l r f : Bool), ∀ a ∈ protoInput l r true true f, moveY a = 0) := by
  decide

/-- Witness for C9: with left+right and up held, the emitted `Move` intent has
horizontal value `0`. -/
theorem opposed_inputs_cancel_witness :
    InputAction.Move (0, 1) ∈ protoInput true true true false false ∧
      moveX (InputAction.Move (0, 1)) = 0 :=
  ⟨by decide, opposed_inputs_cancel.1 true false false (InputAction.Move (0, 1)) (by decide)⟩

/-- C4 (corrected), counterexample to the claim as stated: at `y = 362` (more
than one unit beyond the bound) the `y > 360` reflection lands below `-360`
and the `y < -360` check of the same pass re-triggers, so the final value is
`360`, not the single reflection `-362 + 1 = -361`. -/
theorem boundary_reflection_retriggers :
    wrapPoint (0, 362) = (0, 360) ∧ ((360 : ℚ) ≠ -362 + 1) := by
  constructor
  · norm_num [wrapPoint, wrapX, wrapY, Prod.ext_iff]
  · norm_num

/-- C4 (amended): the boundary wrapper equals, on each axis, the two-stage
rule `wrapCoordSpec`: a coordinate more than one unit beyond the positive
bound is reflected twice in the same pass (net shift by `-2`); a coordinate
beyond a bound by at most one unit, or beyond the negative bound, is negated
with a unit offset toward the interior; a coordinate at the exact boundary or
inside is left unchanged. -/
theorem wrapper_two_stage_reflection :
    (∀ p : ℚ × ℚ, wrapPoint p = (wrapCoordSpec 640 p.1, wrapCoordSpec 360 p.2)) ∧
    wrapPoint (640, 360) = (640, 360) ∧ wrapPoint (-640, -360) = (-640, -360) := by
  refine ⟨fun p => ?_, by norm_num [wrapPoint, wrapX, wrapY, Prod.ext_iff],
    by norm_num [wrapPoint, wrapX, wrapY, Prod.ext_iff]⟩
  obtain ⟨x, y⟩ := p
  simp only [wrapPoint, wrapX, wrapY, wrapCoordSpec, Prod.mk.injEq]
  constructor <;> split_ifs <;> linarith

/-- The `AsteroidClass` component: the size tier of an asteroid. -/
inductive AsteroidClass
  | Big
  | Medium
  | Small
  | Tiny
deriving DecidableEq

/-- The `SpawnAsteroidEvent`: origin translation, class, initial linear
velocity and angular velocity.  (The event's origin `Transform` is sent with a
default rotation and is consumed only for its translation.) -/
structure SpawnAsteroidEvent where
  translation : ℚ × ℚ
  cls : AsteroidClass
  velocity : ℚ × ℚ
  angular : ℚ
deriving DecidableEq

/-- The gameplay components of the bundle instantiated by
`AsteroidBundle::spawn`: sprite scale, collider-ball radius, starting health,
class, and the transform/velocity data copied from the event. -/
structure AsteroidBundle where
  scale : ℚ
  colliderRadius : ℚ
  health : ℤ
  cls : AsteroidClass
  translation : ℚ × ℚ
  velocity : ℚ × ℚ
  angular : ℚ
deriving DecidableEq

/-- Model of `AsteroidBundle::spawn`: instantiate an asteroid from a spawn
event, with the class-determined sprite scale, collider radius and starting
health of the source's three `match` tables. -/
def spawnAsteroid (e : SpawnAsteroidEvent) : AsteroidBundle :=
  let scale : ℚ :=
    match e.cls with
    | AsteroidClass.Big => 2
    | AsteroidClass.Medium => 3/2
    | AsteroidClass.Small => 1
    | AsteroidClass.Tiny => 1
  let colliderSize : ℚ :=
    match e.cls with
    | AsteroidClass.Big => 50
    | AsteroidClass.Medium => 22
    | AsteroidClass.Small => 15
    | AsteroidClass.Tiny => 6
  let health : ℤ :=
    match e.cls with
    | AsteroidClass.Big => 5
    | AsteroidClass.Medium => 4
    | AsteroidClass.Small => 3
    | AsteroidClass.Tiny => 2
  ⟨scale, colliderSize, health, e.cls, e.translation, e.velocity, e.angular⟩

/-- Model of `rand::thread_rng()`: an explicit stream of draws, consumed in
program order. -/
abbrev Rng := List ℚ

/-- Model of `Rng::gen_range(lo..hi)` on floats: consume the next draw of the
stream; the result is that draw when it lies in the half-open sample interval
`[lo, hi)` of the crate's contract, and the interval's low end otherwise
(resolving the nondeterminism of the external generator). -/
def genRange (lo hi : ℚ) (s : Rng) : ℚ × Rng :=
  (if lo ≤ s.headD lo ∧ s.headD lo < hi then s.headD lo else lo, s.tail)

/-- The components of the asteroid entity read by
`handle_destroyed_asteroids`. -/
structure AsteroidState where
  cls : AsteroidClass
  health : ℤ
  translation : ℚ × ℚ
  velocity : ℚ × ℚ
deriving DecidableEq

/-- One ring child of the fragmentation loops of `handle_destroyed_asteroids`,
at loop index `n`: draw the two velocity-jitter components from
`[-45.0, 45.0)` and the angular velocity from `[-5.0, 5.0)`, and place the
child at the parent's translation plus the `Y`-axis vector of length `radius`
rotated about `Z` by `off + n * step`.  `rotY angle r` abstracts
`Quat::from_rotation_z(angle).mul_vec3(Vec3::Y * r)`. -/
def ringChild (rotY : ℚ → ℚ → ℚ × ℚ) (parent : AsteroidState)
    (cls : AsteroidClass) (radius off step : ℚ) (n : ℕ) (rng : Rng) :
    SpawnAsteroidEvent × Rng :=
  let g1 := genRange (-45) 45 rng
  let g2 := genRange (-45) 45 g1.2
  let g3 := genRange (-5) 5 g2.2
  (⟨parent.translation + rotY (off + (n : ℚ) * step) radius, cls,
      (parent.velocity.1 + g1.1, parent.velocity.2 + g2.1), g3.1⟩,
    g3.2)

/-- The `for n in 1..=count` fragmentation loop, over the explicit list of
loop indices. -/
def ringChildren (rotY : ℚ → ℚ → ℚ × ℚ) (parent : AsteroidState)
    (cls : AsteroidClass) (radius off step : ℚ) :
    List ℕ → Rng → List SpawnAsteroidEvent × Rng
  | [], rng => ([], rng)
  | n :: ns, rng =>
    let c := ringChild rotY parent cls radius off step n rng
    let rest := ringChildren rotY parent cls radius off step ns c.2
    (c.1 :: rest.1, rest.2)

/-- Model of the body of `handle_destroyed_asteroids` for one queried
asteroid: when its health is `≤ 0` the asteroid is despawned (the `Bool`
component) and the class-dependent child spawn events are emitted, consuming
the rng stream; otherwise nothing happens.  A `Big` parent first emits a
center `Medium` child at its own position with default (zero) linear and
angular velocity, then 6 ring `Medium` children at radius 68; a `Medium`
parent emits 3 ring `Small` children at radius 20; a `Small` parent emits
4 ring `Tiny` children at radius 10; a `Tiny` parent emits nothing.  The
shared angular offset of a fragmentation event is drawn from `[0.0, 360.0)`
and the even step is `2 * PI / count`. -/
def handleDestroyedAsteroid (rotY : ℚ → ℚ → ℚ × ℚ) (a : AsteroidState)
    (rng : Rng) : Bool × List SpawnAsteroidEvent × Rng :=
  if a.health ≤ 0 then
    match a.cls with
    | AsteroidClass.Big =>
      let center : SpawnAsteroidEvent := ⟨a.translation, AsteroidClass.Medium, (0, 0), 0⟩
      let step : ℚ := 2 * pi32 / 6
      let g := genRange 0 360 rng
      let ring := ringChildren rotY a AsteroidClass.Medium 68 g.1 step
        ((List.range 6).map fun k => k + 1) g.2
      (true, center :: ring.1, ring.2)
    | AsteroidClass.Medium =>
      let step : ℚ := 2 * pi32 / 3
      let g := genRange 0 360 rng
      let ring := ringChildren rotY a AsteroidClass.Small 20 g.1 step
        ((List.range 3).map fun k => k + 1) g.2
      (true, ring.1, ring.2)
    | AsteroidClass.Small =>
      let step : ℚ := 2 * pi32 / 4
      let g := genRange 0 360 rng
      let ring := ringChildren rotY a AsteroidClass.Tiny 10 g.1 step
        ((List.range 4).map fun k => k + 1) g.2
      (true, ring.1, ring.2)
    | AsteroidClass.Tiny => (true, [], rng)
  else (false, [], rng)

/-- The shape the spec's fragmentation rule asserts of one ring child spawned
at loop index `n`: the stated class, placement at the parent's position offset
by the `Y`-axis vector of length `radius` rotated by the shared offset plus
`n` even steps, velocity equal to the parent's velocity plus per-axis jitter
within `[-45, 45]`, and angular velocity within `[-5, 5]`. -/
def ChildShape (rotY : ℚ → ℚ → ℚ × ℚ) (parent : AsteroidState)
    (cls : AsteroidClass) (radius off step n : ℚ) (e : SpawnAsteroidEvent) : Prop :=
  e.cls = cls ∧
  e.translation = parent.translation + rotY (off + n * step) radius ∧
  (∃ jx jy, -45 ≤ jx ∧ jx ≤ 45 ∧ -45 ≤ jy ∧ jy ≤ 45 ∧
    e.velocity = (parent.velocity.1 + jx, parent.velocity.2 + jy)) ∧
  -5 ≤ e.angular ∧ e.angular ≤ 5

/-- The shape the spec's fragmentation rule asserts of a ring of `count`
children: one child per loop index, sharing a single angular offset drawn
from `[0, 360)`, the `i`-th child shaped by `ChildShape` at index `i + 1`. -/
def RingShape (rotY : ℚ → ℚ → ℚ × ℚ) (parent : AsteroidState)
    (cls : AsteroidClass) (radius step : ℚ) (count : ℕ)
    (events : List SpawnAsteroidEvent) : Prop :=
  events.length = count ∧
  ∃ off, 0 ≤ off ∧ off < 360 ∧
    ∀ i (h : i < events.length),
      ChildShape rotY parent cls radius off step ((i : ℚ) + 1) (events.get ⟨i, h⟩)

/-- The conclusion of the fragmentation claim, per parent class: a destroyed
`Big` asteroid yields a center `Medium` child (at the parent's position, with
zero linear and angular velocity) plus a 6-ring of `Medium` children at radius
68; a destroyed `Medium` yields a 3-ring of `Small` children at radius 20; a
destroyed `Small` yields a 4-ring of `Tiny` children at radius 10; a destroyed
`Tiny` yields no children; and in every case the asteroid is despawned. -/
def FragmentationShape (rotY : ℚ → ℚ → ℚ × ℚ) (a : AsteroidState) (rng : Rng) : Prop :=
  (handleDestroyedAsteroid rotY a rng).1 = true ∧
  (a.cls = AsteroidClass.Big →
    ∃ ring, (handleDestroyedAsteroid rotY a rng).2.1 =
        (⟨a.translation, AsteroidClass.Medium, (0, 0), 0⟩ : SpawnAsteroidEvent) :: ring ∧
      RingShape rotY a AsteroidClass.Medium 68 (2 * pi32 / 6) 6 ring) ∧
  (a.cls = AsteroidClass.Medium →
    RingShape rotY a AsteroidClass.Small 20 (2 * pi32 / 3) 3
      (handleDestroyedAsteroid rotY a rng).2.1) ∧
  (a.cls = AsteroidClass.Small →
    RingShape rotY a AsteroidClass.Tiny 10 (2 * pi32 / 4) 4
      (handleDestroyedAsteroid rotY a rng).2.1) ∧
  (a.cls = AsteroidClass.Tiny → (handleDestroyedAsteroid rotY a rng).2.1 = [])

/-- The value of a modelled `gen_range(lo..hi)` draw lies in `[lo, hi)`. -/
lemma genRange_bounds (lo hi : ℚ) (h : lo < hi) (s : Rng) :
    lo ≤ (genRange lo hi s).1 ∧ (genRange lo hi s).1 < hi := by
  unfold genRange
  dsimp only
  split_ifs with h1
  · exact ⟨h1.1, h1.2⟩
  · exact ⟨le_rfl, h⟩

/-- Each ring child produced by the fragmentation loop body has the shape the
spec asserts of it. -/
lemma ringChild_shape (rotY : ℚ → ℚ → ℚ × ℚ) (parent : AsteroidState)
    (cls : AsteroidClass) (radius off step : ℚ) (n : ℕ) (rng : Rng) :
    ChildShape rotY parent cls radius off step (n : ℚ)
      (ringChild rotY parent cls radius off step n rng).1 := by
  have h1 := genRange_bounds (-45) 45 (by norm_num) rng
  have h2 := genRange_bounds (-45) 45 (by norm_num) (genRange (-45) 45 rng).2
  have h3 := genRange_bounds (-5) 5 (by norm_num)
    (genRange (-45) 45 (genRange (-45) 45 rng).2).2
  exact ⟨rfl, rfl,
    ⟨(genRange (-45) 45 rng).1, (genRange (-45) 45 (genRange (-45) 45 rng).2).1,
      h1.1, h1.2.le, h2.1, h2.2.le, rfl⟩,
    h3.1, h3.2.le⟩

/-- Every child of a fragmentation loop run has the shape the spec asserts of
its loop index. -/
lemma ringChildren_forall (rotY : ℚ → ℚ → ℚ × ℚ) (parent : AsteroidState)
    (cls : AsteroidClass) (radius off step : ℚ) :
    ∀ (ns : List ℕ) (rng : Rng),
      List.Forall₂ (fun (n : ℕ) e => ChildShape rotY parent cls radius off step (n : ℚ) e)
        ns (ringChildren rotY parent cls radius off step ns rng).1 := by
  intro ns
  induction ns with
  | nil => intro rng; exact List.Forall₂.nil
  | cons n ns ih =>
    intro rng
    exact List.Forall₂.cons (ringChild_shape rotY parent cls radius off step n rng) (ih _)

/-- A fragmentation loop over indices `1..=count` with an in-range shared
offset produces a ring of the spec's shape. -/
lemma ringShape_of_run (rotY : ℚ → ℚ → ℚ × ℚ) (parent : AsteroidState)
    (cls : AsteroidClass) (radius step : ℚ) (count : ℕ) (off : ℚ) (rng : Rng)
    (h0 : 0 ≤ off) (h1 : off < 360) :
    RingShape rotY parent cls radius step count
      (ringChildren rotY parent cls radius off step
        ((List.range count).map fun k => k + 1) rng).1 := by
  have hf := ringChildren_forall rotY parent cls radius off step
    ((List.range count).map fun k => k + 1) rng
  obtain ⟨hlen, hget⟩ := List.forall₂_iff_get.mp hf
  have hlen2 : (ringChildren rotY parent cls radius off step
      ((List.range count).map fun k => k + 1) rng).1.length = count := by
    rw [← hlen]; simp
  refine ⟨hlen2, off, h0, h1, ?_⟩
  intro i hi
  have hi1 : i < ((List.range count).map fun k => k + 1).length := by
    rw [hlen]; exact hi
  have hg := hget i hi1 hi
  have hidx : ((((List.range count).map fun k => k + 1).get ⟨i, hi1⟩ : ℕ) : ℚ) =
      (i : ℚ) + 1 := by
    have : (((List.range count).map fun k => k + 1).get ⟨i, hi1⟩ : ℕ) = i + 1 := by
      simp [List.getElem_map, List.getElem_range]
    rw [this]
    push_cast
    ring
  rw [hidx] at hg
  exact hg

/-- C2 (confirmed): a destroyed asteroid (health `≤ 0`) is despawned and
spawns exactly the spec's children: a `Big` parent yields 1 center `Medium`
child plus 6 ring `Medium` children at radius 68; a `Medium` parent yields 3
ring `Small` children at radius 20; a `Small` parent yields 4 ring `Tiny`
children at radius 10; each ring child sits at the parent's position offset by
the fixed radius at a shared random angular offset plus an even angular step
per child, with velocity equal to the parent's velocity plus independent
jitter within `[-45, 45]` per axis and angular velocity within `[-5, 5]`; a
`Tiny` parent produces no children. -/
theorem asteroid_fragmentation_shape (rotY : ℚ → ℚ → ℚ × ℚ)
    (a : AsteroidState) (rng : Rng) (h : a.health ≤ 0) :
    FragmentationShape rotY a rng := by
  obtain ⟨cls, health, tr, vel⟩ := a
  have hh : health ≤ 0 := h
  have hg := genRange_bounds 0 360 (by norm_num) rng
  cases cls with
  | Big =>
    have hkey : handleDestroyedAsteroid rotY ⟨AsteroidClass.Big, health, tr, vel⟩ rng =
        (true,
          (⟨tr, AsteroidClass.Medium, (0, 0), 0⟩ : SpawnAsteroidEvent) ::
            (ringChildren rotY ⟨AsteroidClass.Big, health, tr, vel⟩ AsteroidClass.Medium
              68 (genRange 0 360 rng).1 (2 * pi32 / 6)
              ((List.range 6).map fun k => k + 1) (genRange 0 360 rng).2).1,
          (ringChildren rotY ⟨AsteroidClass.Big, health, tr, vel⟩ AsteroidClass.Medium
            68 (genRange 0 360 rng).1 (2 * pi32 / 6)
            ((List.range 6).map fun k => k + 1) (genRange 0 360 rng).2).2) := by
      unfold handleDestroyedAsteroid
      rw [if_pos hh]
    refine ⟨by rw [hkey], fun _ => ?_, fun hc => ?_, fun hc => ?_, fun hc => ?_⟩
    · refine ⟨_, by rw [hkey], ?_⟩
      exact ringShape_of_run rotY _ _ 68 (2 * pi32 / 6) 6 _ _ hg.1 hg.2
    · simp at hc
    · simp at hc
    · simp at hc
  | Medium =>
    have hkey : handleDestroyedAsteroid rotY ⟨AsteroidClass.Medium, health, tr, vel⟩ rng =
        (true,
          (ringChildren rotY ⟨AsteroidClass.Medium, health, tr, vel⟩ AsteroidClass.Small
            20 (genRange 0 360 rng).1 (2 * pi32 / 3)
            ((List.range 3).map fun k => k + 1) (genRange 0 360 rng).2).1,
          (ringChildren rotY ⟨AsteroidClass.Medium, health, tr, vel⟩ AsteroidClass.Small
            20 (genRange 0 360 rng).1 (2 * pi32 / 3)
            ((List.range 3).map fun k => k + 1) (genRange 0 360 rng).2).2) := by
      unfold handleDestroyedAsteroid
      rw [if_pos hh]
    refine ⟨by rw [hkey], fun hc => ?_, fun _ => ?_, fun hc => ?_, fun hc => ?_⟩
    · simp at hc
    · rw [hkey]
      exact ringShape_of_run rotY _ _ 20 (2 * pi32 / 3) 3 _ _ hg.1 hg.2
    · simp at hc
    · simp at hc
  | Small =>
    have hkey : handleDestroyedAsteroid rotY ⟨AsteroidClass.Small, health, tr, vel⟩ rng =
        (true,
          (ringChildren rotY ⟨AsteroidClass.Small, health, tr, vel⟩ AsteroidClass.Tiny
            10 (genRange 0 360 rng).1 (2 * pi32 / 4)
            ((List.range 4).map fun k => k + 1) (genRange 0 360 rng).2).1,
          (ringChildren rotY ⟨AsteroidClass.Small, health, tr, vel⟩ AsteroidClass.Tiny
            10 (genRange 0 360 rng).1 (2 * pi32 / 4)
            ((List.range 4).map fun k => k + 1) (genRange 0 360 rng).2).2) := by
      unfold handleDestroyedAsteroid
      rw [if_pos hh]
    refine ⟨by rw [hkey], fun hc => ?_, fun hc => ?_, fun _ => ?_, fun hc => ?_⟩
    · simp at hc
    · simp at hc
    · rw [hkey]
      exact ringShape_of_run rotY _ _ 10 (2 * pi32 / 4) 4 _ _ hg.1 hg.2
    · simp at hc
  | Tiny =>
    have hkey : handleDestroyedAsteroid rotY ⟨AsteroidClass.Tiny, health, tr, vel⟩ rng =
        (true, [], rng) := by
      unfold handleDestroyedAsteroid
      rw [if_pos hh]
    refine ⟨by rw [hkey], fun hc => ?_, fun hc => ?_, fun hc => ?_, fun _ => ?_⟩
    · simp at hc
    · simp at hc
    · simp at hc
    · rw [hkey]

/-- Witness for C2 at a concrete destroyed `Big` asteroid with an empty rng
stream and a trivial rotation function. -/
theorem asteroid_fragmentation_shape_witness :
    (⟨AsteroidClass.Big, 0, (100, 100), (0, 0)⟩ : AsteroidState).health ≤ 0 ∧
      FragmentationShape (fun _ _ => (0, 0))
        ⟨AsteroidClass.Big, 0, (100, 100), (0, 0)⟩ [] :=
  ⟨by decide, asteroid_fragmentation_shape (fun _ _ => (0, 0))
    ⟨AsteroidClass.Big, 0, (100, 100), (0, 0)⟩ [] (by decide)⟩

/-- C10 (confirmed): the single center child of a fragmenting `Big` asteroid
is spawned at the parent's position with class `Medium`, zero linear velocity
and zero angular velocity — it inherits neither the parent's velocity nor any
random jitter. -/
theorem big_center_child_default_velocity (rotY : ℚ → ℚ → ℚ × ℚ)
    (a : AsteroidState) (rng : Rng) (h : a.health ≤ 0)
    (hc : a.cls = AsteroidClass.Big) :
    (handleDestroyedAsteroid rotY a rng).2.1.head? =
      some ⟨a.translation, AsteroidClass.Medium, (0, 0), 0⟩ := by
  obtain ⟨cls, health, tr, vel⟩ := a
  have hh : health ≤ 0 := h
  cases cls with
  | Big =>
    unfold handleDestroyedAsteroid
    rw [if_pos hh]
    rfl
  | Medium => exact nomatch hc
  | Small => exact nomatch hc
  | Tiny => exact nomatch hc

/-- Witness for C10 at a concrete destroyed `Big` asteroid with nonzero
parent velocity: the center child still has zero velocity. -/
theorem big_center_child_default_velocity_witness :
    (handleDestroyedAsteroid (fun _ _ => (0, 0))
        ⟨AsteroidClass.Big, -1, (7, 8), (3, 4)⟩ [1, 2, 3]).2.1.head? =
      some ⟨(7, 8), AsteroidClass.Medium, (0, 0), 0⟩ :=
  big_center_child_default_velocity (fun _ _ => (0, 0))
    ⟨AsteroidClass.Big, -1, (7, 8), (3, 4)⟩ [1, 2, 3] (by decide) rfl

/-- C6 (confirmed): the instantiated asteroid's starting health, sprite scale
and collider radius are determined by its class exactly per the table
(health 5/4/3/2, scale 2/1.5/1/1, radius 50/22/15/6 for
Big/Medium/Small/Tiny). -/
theorem asteroid_spawn_table (t v : ℚ × ℚ) (ang : ℚ) :
    ((spawnAsteroid ⟨t, AsteroidClass.Big, v, ang⟩).health = 5 ∧
      (spawnAsteroid ⟨t, AsteroidClass.Big, v, ang⟩).scale = 2 ∧
      (spawnAsteroid ⟨t, AsteroidClass.Big, v, ang⟩).colliderRadius = 50) ∧
    ((spawnAsteroid ⟨t, AsteroidClass.Medium, v, ang⟩).health = 4 ∧
      (spawnAsteroid ⟨t, AsteroidClass.Medium, v, ang⟩).scale = 3/2 ∧
      (spawnAsteroid ⟨t, AsteroidClass.Medium, v, ang⟩).colliderRadius = 22) ∧
    ((spawnAsteroid ⟨t, AsteroidClass.Small, v, ang⟩).health = 3 ∧
      (spawnAsteroid ⟨t, AsteroidClass.Small, v, ang⟩).scale = 1 ∧
      (spawnAsteroid ⟨t, AsteroidClass.Small, v, ang⟩).colliderRadius = 15) ∧
    ((spawnAsteroid ⟨t, AsteroidClass.Tiny, v, ang⟩).health = 2 ∧
      (spawnAsteroid ⟨t, AsteroidClass.Tiny, v, ang⟩).scale = 1 ∧
      (spawnAsteroid ⟨t, AsteroidClass.Tiny, v, ang⟩).colliderRadius = 6) :=
  ⟨⟨rfl, rfl, rfl⟩, ⟨rfl, rfl, rfl⟩, ⟨rfl, rfl, rfl⟩, ⟨rfl, rfl, rfl⟩⟩

/-- The `EntityTypes` side classification of `handle_collisions`. -/
inductive EntityTypes
  | Asteroid
  | Laser
  | Ship
  | Unknown
deriving DecidableEq

/-- The component stores consulted by `handle_collisions`: the asteroid query
`(Entity, &AsteroidClass, &mut AsteroidHealth)` as an id-keyed list, and the
entity-id sets of the laser and ship queries. -/
structure World where
  asteroids : List (ℕ × AsteroidClass × ℤ)
  lasers : List ℕ
  ships : List ℕ
deriving DecidableEq

/-- Success of the asteroid query lookup `asteroids.get(id)`. -/
def isAsteroidId (w : World) (id : ℕ) : Bool :=
  w.asteroids.any fun a => decide (a.1 = id)

/-- Success of the laser query lookup `lasers.get(id)`. -/
def isLaserId (w : World) (id : ℕ) : Bool :=
  w.lasers.any fun l => decide (l = id)

/-- Success of the ship query lookup `ships.get(id)`. -/
def isShipId (w : World) (id : ℕ) : Bool :=
  w.ships.any fun s => decide (s = id)

/-- The side classification of `handle_collisions`: the asteroid lookup is
tried first, then the laser lookup, then the ship lookup, else `Unknown`. -/
def classify (w : World) (id : ℕ) : EntityTypes :=
  if isAsteroidId w id then EntityTypes.Asteroid
  else if isLaserId w id then EntityTypes.Laser
  else if isShipId w id then EntityTypes.Ship
  else EntityTypes.Unknown

/-- Model of `Commands::despawn_recursive` on entity `id`: the entity
disappears from every store. -/
def despawn (w : World) (id : ℕ) : World :=
  ⟨w.asteroids.filter fun a => decide (a.1 ≠ id),
    w.lasers.filter fun l => decide (l ≠ id),
    w.ships.filter fun s => decide (s ≠ id)⟩

/-- The health-decrement step of `handle_collisions`: look the asteroid up
again (`asteroids.get_mut`); on `Ok` subtract `1` from its health, on `Err`
silently leave the world unchanged. -/
def decrementAsteroid (w : World) (id : ℕ) : World :=
  if isAsteroidId w id then
    { w with
      asteroids := w.asteroids.map fun a =>
        if a.1 = id then (a.1, a.2.1, a.2.2 - 1) else a }
  else w

/-- Model of `handle_collisions` for one collision event `(e1, e2)`: classify
both sides, then apply the resolution table — an Asteroid–Laser pair despawns
the laser and decrements the asteroid's health, every other pair (including
both Asteroid–Asteroid and Asteroid–Ship, and the `_` catch-all) changes
nothing. -/
def resolveCollision (w : World) (e1 e2 : ℕ) : World :=
  match classify w e1, classify w e2 with
  | EntityTypes.Asteroid, EntityTypes.Asteroid => w
  | EntityTypes.Asteroid, EntityTypes.Laser => decrementAsteroid (despawn w e2) e1
  | EntityTypes.Asteroid, EntityTypes.Ship => w
  | EntityTypes.Laser, EntityTypes.Asteroid => decrementAsteroid (despawn w e1) e2
  | EntityTypes.Ship, EntityTypes.Asteroid => w
  | _, _ => w

/-- The health of asteroid `id` in the world's asteroid store (first matching
entry), `none` when the lookup fails. -/
def asteroidHealth (w : World) (id : ℕ) : Option ℤ :=
  (w.asteroids.find? fun a => decide (a.1 = id)).map fun a => a.2.2

/-- Searching a filtered list for an element whose predicate implies the
filter keeps it finds the same element as searching the original list. -/
lemma find?_filter_of_imp {α : Type} (p q : α → Bool)
    (h : ∀ a, p a = true → q a = true) :
    ∀ l : List α, (l.filter q).find? p = l.find? p := by
  intro l
  induction l with
  | nil => rfl
  | cons a l ih =>
    by_cases hp : p a = true
    · have hq := h a hp
      rw [List.filter_cons, if_pos hq, List.find?_cons, List.find?_cons, hp]
    · have hp2 : p a = false := by
        cases hpa : p a
        · rfl
        · exact absurd hpa hp
      by_cases hq : q a = true
      · rw [List.filter_cons, if_pos hq, List.find?_cons, List.find?_cons, hp2, ih]
      · have hq2 : q a = false := by
          cases hqa : q a
          · rfl
          · exact absurd hqa hq
        rw [List.filter_cons, hq2, if_neg (by simp), ih, List.find?_cons, hp2]

/-- Mapping a function that does not change a predicate's verdict commutes
with `find?`. -/
lemma find?_map_of_pres {α : Type} (f : α → α) (p : α → Bool)
    (h : ∀ a, p (f a) = p a) :
    ∀ l : List α, (l.map f).find? p = (l.find? p).map f := by
  intro l
  induction l with
  | nil => rfl
  | cons a l ih =>
    rw [List.map_cons, List.find?_cons, List.find?_cons, h a]
    cases hpa : p a
    · simpa using ih
    · rfl

/-- Mapping a function that does not change a predicate's verdict preserves
`any`. -/
lemma any_map_of_pres {α : Type} (f : α → α) (p : α → Bool)
    (h : ∀ a, p (f a) = p a) :
    ∀ l : List α, (l.map f).any p = l.any p := by
  intro l
  induction l with
  | nil => rfl
  | cons a l ih =>
    rw [List.map_cons, List.any_cons, List.any_cons, h a, ih]

/-- After filtering out every element with key `id`, no element with key `id`
can be found. -/
lemma any_key_filter_ne {α : Type} (key : α → ℕ) (id : ℕ) :
    ∀ l : List α,
      ((l.filter fun a => decide (key a ≠ id)).any fun a => decide (key a = id)) = false := by
  intro l
  induction l with
  | nil => rfl
  | cons a l ih =>
    by_cases hk : key a = id
    · rw [List.filter_cons, if_neg (by simp [hk]), ih]
    · rw [List.filter_cons, if_pos (by simp [hk]), List.any_cons, ih,
        Bool.or_false, decide_eq_false hk]

/-- An entity classifies as `Asteroid` exactly when the asteroid lookup
succeeds (the asteroid branch is tried first). -/
lemma classify_asteroid_iff (w : World) (id : ℕ) :
    classify w id = EntityTypes.Asteroid ↔ isAsteroidId w id = true := by
  unfold classify
  split_ifs with h1 h2 h3 <;> simp_all

/-- An entity that classifies as `Laser` failed the asteroid lookup. -/
lemma classify_laser_asteroid_false {w : World} {id : ℕ}
    (h : classify w id = EntityTypes.Laser) : isAsteroidId w id = false := by
  cases hb : isAsteroidId w id
  · rfl
  · unfold classify at h
    rw [if_pos hb] at h
    exact EntityTypes.noConfusion h

/-- An entity absent from all three stores classifies as `Unknown`. -/
lemma classify_unknown (w : World) (id : ℕ) (h1 : isAsteroidId w id = false)
    (h2 : isLaserId w id = false) (h3 : isShipId w id = false) :
    classify w id = EntityTypes.Unknown := by
  simp [classify, h1, h2, h3]

/-- C3 (confirmed): resolving an Asteroid–Projectile collision pair despawns
the projectile (it classifies as `Unknown` afterwards, being absent from every
store) and decrements the asteroid's health by exactly 1; and resolving the
pair `(A, B)` yields the same world state as resolving `(B, A)` for every pair
of classifications. -/
theorem collision_symmetric_and_asteroid_laser :
    (∀ (w : World) (e1 e2 : ℕ), resolveCollision w e1 e2 = resolveCollision w e2 e1) ∧
    (∀ (w : World) (e1 e2 : ℕ),
      classify w e1 = EntityTypes.Asteroid → classify w e2 = EntityTypes.Laser →
      asteroidHealth (resolveCollision w e1 e2) e1 =
        (asteroidHealth w e1).map (fun h => h - 1) ∧
      classify (resolveCollision w e1 e2) e2 = EntityTypes.Unknown) := by
  constructor
  · intro w e1 e2
    cases h1 : classify w e1 <;> cases h2 : classify w e2 <;>
      simp only [resolveCollision, h1, h2]
  · intro w e1 e2 h1 h2
    have ha1 : isAsteroidId w e1 = true := (classify_asteroid_iff w e1).mp h1
    have ha2 : isAsteroidId w e2 = false := classify_laser_asteroid_false h2
    have hne : e1 ≠ e2 := by
      intro he
      rw [he] at ha1
      rw [ha1] at ha2
      exact Bool.noConfusion ha2
    have hres : resolveCollision w e1 e2 = decrementAsteroid (despawn w e2) e1 := by
      simp only [resolveCollision, h1, h2]
    have hpres1 : ∀ a : ℕ × AsteroidClass × ℤ,
        (decide ((if a.1 = e1 then (a.1, a.2.1, a.2.2 - 1) else a).1 = e1)) =
          decide (a.1 = e1) := by
      intro a
      by_cases hx : a.1 = e1 <;> simp [hx]
    have hpres2 : ∀ a : ℕ × AsteroidClass × ℤ,
        (decide ((if a.1 = e1 then (a.1, a.2.1, a.2.2 - 1) else a).1 = e2)) =
          decide (a.1 = e2) := by
      intro a
      by_cases hx : a.1 = e1 <;> simp [hx]
    have hfilt : ((despawn w e2).asteroids.find? fun a => decide (a.1 = e1)) =
        w.asteroids.find? fun a => decide (a.1 = e1) := by
      apply find?_filter_of_imp
      intro a ha
      have hx : a.1 = e1 := of_decide_eq_true ha
      simp [hx, hne]
    have hast1 : isAsteroidId (despawn w e2) e1 = true := by
      obtain ⟨x, hxmem, hxp⟩ := List.any_eq_true.mp ha1
      have hx1 : x.1 = e1 := of_decide_eq_true hxp
      simp only [isAsteroidId, despawn]
      apply List.any_eq_true.mpr
      refine ⟨x, List.mem_filter.mpr ⟨hxmem, by simp [hx1, hne]⟩, hxp⟩
    have hw2 : decrementAsteroid (despawn w e2) e1 =
        ⟨(despawn w e2).asteroids.map fun a =>
            if a.1 = e1 then (a.1, a.2.1, a.2.2 - 1) else a,
          (despawn w e2).lasers, (despawn w e2).ships⟩ := by
      unfold decrementAsteroid
      rw [if_pos hast1]
    constructor
    · rw [hres, hw2]
      unfold asteroidHealth
      rw [show (⟨(despawn w e2).asteroids.map fun a =>
            if a.1 = e1 then (a.1, a.2.1, a.2.2 - 1) else a,
          (despawn w e2).lasers, (despawn w e2).ships⟩ : World).asteroids =
          (despawn w e2).asteroids.map fun a =>
            if a.1 = e1 then (a.1, a.2.1, a.2.2 - 1) else a from rfl]
      rw [find?_map_of_pres _ _ hpres1, hfilt]
      cases hf : w.asteroids.find? fun a => decide (a.1 = e1) with
      | none => rfl
      | some a0 =>
        have hx0 : (fun a : ℕ × AsteroidClass × ℤ => decide (a.1 = e1)) a0 = true :=
          @List.find?_some _ (fun a => decide (a.1 = e1)) a0 w.asteroids hf
        have hx : a0.1 = e1 := of_decide_eq_true hx0
        simp [hx]
    · rw [hres, hw2]
      apply classify_unknown
      · show ((((despawn w e2).asteroids.map fun a =>
            if a.1 = e1 then (a.1, a.2.1, a.2.2 - 1) else a)).any
              fun a => decide (a.1 = e2)) = false
        rw [any_map_of_pres _ _ hpres2]
        simp only [despawn]
        exact any_key_filter_ne (fun a => a.1) e2 w.asteroids
      · show ((despawn w e2).lasers.any fun l => decide (l = e2)) = false
        simp only [despawn]
        exact any_key_filter_ne (fun x => x) e2 w.lasers
      · show ((despawn w e2).ships.any fun s => decide (s = e2)) = false
        simp only [despawn]
        exact any_key_filter_ne (fun x => x) e2 w.ships

/-- Witness for C3 at a concrete world: asteroid entity 1 (health 5), laser
entity 2, ship entity 3; the event `(1, 2)` decrements the asteroid's health
and despawns the laser. -/
theorem collision_symmetric_and_asteroid_laser_witness :
    (classify ⟨[(1, AsteroidClass.Big, 5)], [2], [3]⟩ 1 = EntityTypes.Asteroid ∧
      classify ⟨[(1, AsteroidClass.Big, 5)], [2], [3]⟩ 2 = EntityTypes.Laser) ∧
    (asteroidHealth (resolveCollision ⟨[(1, AsteroidClass.Big, 5)], [2], [3]⟩ 1 2) 1 =
        (asteroidHealth ⟨[(1, AsteroidClass.Big, 5)], [2], [3]⟩ 1).map (fun h => h - 1) ∧
      classify (resolveCollision ⟨[(1, AsteroidClass.Big, 5)], [2], [3]⟩ 1 2) 2 =
        EntityTypes.Unknown) :=
  ⟨⟨by decide, by decide⟩,
    collision_symmetric_and_asteroid_laser.2 ⟨[(1, AsteroidClass.Big, 5)], [2], [3]⟩ 1 2
      (by decide) (by decide)⟩

/-- C8 (confirmed): every collision pair with an `Unknown` side, and the
Asteroid–Asteroid and Asteroid–Ship pairs, change no gameplay state; and a
failing asteroid lookup at the health-decrement step is silently ignored —
the world is simply left unchanged. -/
theorem collision_noop_cases_and_silent_decrement_failure :
    (∀ (w : World) (e1 e2 : ℕ),
      classify w e1 = EntityTypes.Unknown ∨ classify w e2 = EntityTypes.Unknown →
      resolveCollision w e1 e2 = w) ∧
    (∀ (w : World) (e1 e2 : ℕ),
      classify w e1 = EntityTypes.Asteroid → classify w e2 = EntityTypes.Asteroid →
      resolveCollision w e1 e2 = w) ∧
    (∀ (w : World) (e1 e2 : ℕ),
      (classify w e1 = EntityTypes.Asteroid ∧ classify w e2 = EntityTypes.Ship) ∨
        (classify w e1 = EntityTypes.Ship ∧ classify w e2 = EntityTypes.Asteroid) →
      resolveCollision w e1 e2 = w) ∧
    (∀ (w : World) (id : ℕ), isAsteroidId w id = false → decrementAsteroid w id = w) := by
  refine ⟨?_, ?_, ?_, ?_⟩
  · intro w e1 e2 h
    rcases h with h | h
    · cases h2 : classify w e2 <;> simp only [resolveCollision, h, h2]
    · cases h1 : classify w e1 <;> simp only [resolveCollision, h, h1]
  · intro w e1 e2 h1 h2
    simp only [resolveCollision, h1, h2]
  · intro w e1 e2 h
    rcases h with ⟨h1, h2⟩ | ⟨h1, h2⟩ <;> simp only [resolveCollision, h1, h2]
  · intro w id h
    unfold decrementAsteroid
    rw [if_neg (by simp [h])]

/-- Witness for C8: in a world with asteroid 1, laser 2, ship 3, decrementing
the absent asteroid 9 leaves the world unchanged. -/
theorem collision_noop_cases_witness :
    isAsteroidId ⟨[(1, AsteroidClass.Big, 5)], [2], [3]⟩ 9 = false ∧
      decrementAsteroid ⟨[(1, AsteroidClass.Big, 5)], [2], [3]⟩ 9 =
        ⟨[(1, AsteroidClass.Big, 5)], [2], [3]⟩ :=
  ⟨by decide,
    collision_noop_cases_and_silent_decrement_failure.2.2.2
      ⟨[(1, AsteroidClass.Big, 5)], [2], [3]⟩ 9 (by decide)⟩

/-- A 2D transform: translation plus the `Z` Euler rotation angle (the only
rotation component a 2D game uses; `laser_spawner` reads it via
`rotation.to_euler(EulerRot::XYZ).2`). -/
structure TransformQ where
  translation : ℚ × ℚ
  rotZ : ℚ
deriving DecidableEq

/-- The gameplay components of `LaserBoltBundle` read by the claims: the
spawn transform, the initial linear velocity, and the `Lifetime` timer. -/
structure LaserBolt where
  transform : TransformQ
  velocity : ℚ × ℚ
  lifetime : Timer
deriving DecidableEq

/-- Model of `laser_spawner` for one `SpawnLaserEvent`: the bolt spawns at the
event's origin, with speed-500 velocity along the origin's `Z` rotation
advanced by `PI / 2`, and a fresh 5-second once-timer lifetime
(`LaserBoltBundle::default()`).  `cosq`/`sinq` abstract `f32::cos`/`f32::sin`. -/
def spawnLaser (cosq sinq : ℚ → ℚ) (origin : TransformQ) : LaserBolt :=
  let speed : ℚ := 500
  let zRot := origin.rotZ + pi32 / 2
  ⟨origin, (cosq zRot * speed, sinq zRot * speed), ⟨0, 5⟩⟩

/-- Model of `update_lifetimes` for one tick: every `Lifetime` timer is ticked
by the tick's delta, then the entities whose timer finished are despawned (the
deferred command queue applies the despawns after the pass). -/
def updateLifetimes (delta : ℚ) (world : List (ℕ × Timer)) : List (ℕ × Timer) :=
  (world.map fun p => (p.1, p.2.tick delta)).filter fun p => !p.2.finished

/-- `update_lifetimes` run over a sequence of ticks with the given deltas. -/
def runLifetimes (deltas : List ℚ) (world : List (ℕ × Timer)) : List (ℕ × Timer) :=
  deltas.foldl (fun w d => updateLifetimes d w) world

/-- An empty world stays empty under any sequence of lifetime ticks. -/
lemma runLifetimes_nil_world (deltas : List ℚ) : runLifetimes deltas [] = [] := by
  induction deltas with
  | nil => rfl
  | cons d ds ih => exact ih

/-- A single live timer survives a sequence of nonnegative tick deltas exactly
as long as its accumulated elapsed time stays below its duration, and its
elapsed time is the sum of the deltas it received. -/
lemma single_lifetime_run (i : ℕ) :
    ∀ (ds : List ℚ) (t : Timer), (∀ x ∈ ds, 0 ≤ x) → t.elapsed < t.duration →
      runLifetimes ds [(i, t)] =
        if t.elapsed + ds.sum < t.duration
        then [(i, ⟨t.elapsed + ds.sum, t.duration⟩)] else [] := by
  intro ds
  induction ds with
  | nil =>
    intro t _ halive
    rw [if_pos (by simpa using halive)]
    simp only [List.sum_nil, add_zero]
    rfl
  | cons d ds ih =>
    intro t hnn halive
    have hd : 0 ≤ d := hnn d (by simp)
    have hs : 0 ≤ ds.sum := List.sum_nonneg fun x hx => hnn x (List.mem_cons_of_mem _ hx)
    by_cases hfin : t.duration ≤ t.elapsed + d
    · have hstep : updateLifetimes d [(i, t)] = [] := by
        simp [updateLifetimes, Timer.tick, Timer.finished, le_min_iff, hfin]
      have hchain : runLifetimes (d :: ds) [(i, t)] =
          runLifetimes ds (updateLifetimes d [(i, t)]) := rfl
      rw [hchain, hstep, runLifetimes_nil_world, if_neg]
      rw [List.sum_cons, ← add_assoc]
      intro hlt
      linarith
    · push_neg at hfin
      have hstep : updateLifetimes d [(i, t)] = [(i, ⟨t.elapsed + d, t.duration⟩)] := by
        simp [updateLifetimes, Timer.tick, Timer.finished, min_eq_left hfin.le, hfin.not_le]
      have hchain : runLifetimes (d :: ds) [(i, t)] =
          runLifetimes ds (updateLifetimes d [(i, t)]) := rfl
      have hrec := ih ⟨t.elapsed + d, t.duration⟩
        (fun x hx => hnn x (List.mem_cons_of_mem _ hx)) (by simpa using hfin)
      rw [hchain, hstep, hrec]
      simp only [List.sum_cons, ← add_assoc]

/-- C7 (confirmed): every projectile spawns with a fixed-speed (500) velocity
along its origin transform's rotation advanced by `PI / 2` and a 5-second TTL;
each tick every live projectile's TTL advances by the tick's elapsed time, and
the projectile is removed exactly when the TTL expires — it is present after
any tick sequence whose accumulated time is below 5 seconds and absent from
the first tick whose accumulated time reaches 5 seconds onward. -/
theorem projectile_spawn_and_ttl (cosq sinq : ℚ → ℚ) :
    (∀ origin : TransformQ,
      spawnLaser cosq sinq origin =
        ⟨origin,
          (cosq (origin.rotZ + pi32 / 2) * 500, sinq (origin.rotZ + pi32 / 2) * 500),
          ⟨0, 5⟩⟩) ∧
    (∀ (i : ℕ) (ds : List ℚ), (∀ x ∈ ds, 0 ≤ x) →
      runLifetimes ds [(i, ⟨0, 5⟩)] =
        if ds.sum < 5 then [(i, ⟨ds.sum, 5⟩)] else []) := by
  constructor
  · intro origin
    rfl
  · intro i ds h
    have hrun := single_lifetime_run i ds ⟨0, 5⟩ h (by norm_num)
    simpa using hrun

/-- Witness for C7: a fresh 5-second projectile survives two 2-second ticks
(sum 4 < 5). -/
theorem projectile_spawn_and_ttl_witness :
    runLifetimes [2, 2] [(0, ⟨0, 5⟩)] =
      if List.sum ([2, 2] : List ℚ) < 5
      then [(0, ⟨List.sum ([2, 2] : List ℚ), 5⟩)] else [] :=
  (projectile_spawn_and_ttl (fun _ => 0) (fun _ => 0)).2 0 [2, 2] (by decide)

end Survive
